import Mathlib

/-!
# A verification model of the SwitchProxy request pipeline

This file gives a shallow embedding of the core of the `switchproxy`
package: the `Transfer` buffer set, `Switch.process` (URL overlay,
prefix rewriting, hook invocation, the outbound call and response-body
accumulation) and `Proxy.ServeHTTP` (body capture, primary forward,
secondary mirroring, guaranteed release), together with the relevant
pieces of the Go standard library that the code leans on
(`path.Clean`/`path.Join`, `http.Error` semantics, `sync.Pool`
acquire/release).

External effects are made explicit:
* network behaviour (`http.Client.Do`, whether
  `http.NewRequestWithContext` succeeds, and the `fastrand` stream) is
  an oracle value of type `Net`;
* client-connection I/O failures (failure while reading the inbound
  body, failure while copying the accumulator to the client) are an
  oracle value of type `ClientIO`;
* hook invocations, header copying and the outbound call are recorded
  in an event trace so that ordering and payload properties can be
  stated.

Strings are treated as sequences of characters; the byte-level string
operations of the Go source (`strings.HasPrefix`, `s[len(k):]`)
coincide with the character-level ones on ASCII data.
-/

namespace SwitchProxy

/-- HTTP headers: Go's `http.Header` (`map[string][]string`) modelled as an
association list whose keys are unique. -/
abbrev HeaderMap := List (String × List String)

/-- Map update with `Set` semantics: replace the value at the key when
present, otherwise add the binding. -/
def hset (h : HeaderMap) (k : String) (v : List String) : HeaderMap :=
  if h.any (fun kv => kv.1 == k) then
    h.map (fun kv => if kv.1 == k then (k, v) else kv)
  else h ++ [(k, v)]

/-- Map deletion (`Header.Del`). -/
def hdel (h : HeaderMap) (k : String) : HeaderMap :=
  h.filter (fun kv => kv.1 != k)

/-- The header-copy loop `for k, v := range h { w.Header()[k] = v }` of
`Proxy.ServeHTTP`. -/
def hsetAll (w : HeaderMap) (h : HeaderMap) : HeaderMap :=
  h.foldl (fun acc kv => hset acc kv.1 kv.2) w

/-- The part of Go's `url.URL` that `Switch.process` reads and writes.
The source's `Opaque` field is named `opaq` here. -/
structure URLData where
  Scheme : String := ""
  opaq : String := ""
  User : Option String := none
  Host : String := ""
  Path : String := ""
  RawQuery : String := ""
  ForceQuery : Bool := false
  Fragment : String := ""
deriving DecidableEq, Repr

/-- The part of Go's `http.Request` that the pipeline reads.  `bodyBytes`
is the content of the inbound body stream `r.Body`. -/
structure Request where
  Method : String := ""
  URL : URLData := {}
  Header : HeaderMap := []
  Trailer : HeaderMap := []
  TransferEncoding : List String := []
  RemoteAddr : String := ""
  bodyBytes : List Nat := []
deriving DecidableEq, Repr

/-- The `transfer` struct of proxy.go.  `«in»` is the `*bytes.Reader`
over the captured body, modelled as its read offset into `data`
(`none` models a nil reader); `out` is the output accumulator, `read`
the ingestion buffer and `data` the captured-body slice (`none` models
a nil slice). -/
structure Transfer where
  «in» : Option Nat := none
  out : List Nat := []
  read : List Nat := []
  data : Option (List Nat) := none
deriving DecidableEq, Repr

/-- The `Result` record delivered to hooks.  The source stores the
serialized URL string `s.String()` in `URL`; the model keeps the
structured URL value instead. -/
structure Result where
  Headers : HeaderMap := []
  IP : String := ""
  UUID : String := ""
  Path : String := ""
  Method : String := ""
  URL : URLData := {}
  Content : Option (List Nat) := none
  Status : Nat := 0
deriving DecidableEq, Repr

/-- `Result.IsResponse`: `len(r.Method) > 0 && r.Status > 0`. -/
def Result.IsResponse (r : Result) : Bool :=
  decide (0 < r.Method.length) && decide (0 < r.Status)

/-- The `Switch` struct.  `Pre`/`Post` record whether the corresponding
handler slot is non-nil; the handlers' own behaviour is external and is
observed through the event trace.  The embedded `url.URL` is the `URL`
field. -/
structure Switch where
  Pre : Bool := false
  Post : Bool := false
  rewrite : List (String × String) := []
  URL : URLData := {}
  timeout : Int := 0
deriving DecidableEq, Repr

/-- The outbound request as seen by the transport: method and URL from
`http.NewRequestWithContext`, headers/trailer/transfer-encoding copied
from the inbound request, body read from the Transfer's input cursor. -/
structure OutRequest where
  Method : String := ""
  URL : URLData := {}
  Header : HeaderMap := []
  Trailer : HeaderMap := []
  TransferEncoding : List String := []
  Body : List Nat := []
deriving DecidableEq, Repr

/-- Outcome of one `client.Do` call.  `failure` is a transport-level
error.  On `success`, `copyFailAt = some k` means the subsequent
`io.Copy(t.out, o.Body)` fails after `k` bytes were copied; `none`
means the body copy completes. -/
inductive CallResult where
  | failure
  | success (status : Nat) (headers : HeaderMap) (body : List Nat) (copyFailAt : Option Nat)
deriving DecidableEq, Repr

/-- External behaviour for one `Switch.process` invocation: whether
`http.NewRequestWithContext` succeeds, what `client.Do` returns for a
given outbound request, and the `runtime.fastrand` stream (`rand j` is
the value of the `j`-th call). -/
structure Net where
  reqOk : Bool
  call : OutRequest → CallResult
  rand : Nat → Nat

/-- Observable events of one `Switch.process` invocation, in program
order. -/
inductive Event where
  | evPre (res : Result)
  | evCopyHeaders (h : HeaderMap) (tr : HeaderMap) (te : List String)
  | evCall (q : OutRequest)
  | evPost (res : Result)
deriving DecidableEq, Repr

/- ### Go standard library: `path.Clean` and `path.Join` -/

/-- The inner backtracking loop of `path.Clean`'s `..` case:
`out.w--; for out.w > dotdot && out.index(out.w) != '/' { out.w-- }`.
`rout` is the output buffer reversed and `dropped` the character
removed by the preceding decrement. -/
def backtrack (dotdot : Nat) : List Char → Char → List Char
  | [], _ => []
  | c :: rest, dropped =>
    if dotdot < rest.length + 1 && dropped != '/' then backtrack dotdot rest c
    else c :: rest

/-- The main loop of `path.Clean`, over the remaining input.  `rout` is
the output buffer reversed.  The extra fuel argument makes the
recursion structural; it is always called with more fuel than input
characters, so the fuel never runs out. -/
def cleanLoop (rooted : Bool) : Nat → List Char → Nat → List Char → List Char
  | 0, _, _, rout => rout
  | _ + 1, [], _, rout => rout
  | fuel + 1, c :: rest, dotdot, rout =>
    if c = '/' then
      cleanLoop rooted fuel rest dotdot rout
    else if c = '.' ∧ (rest.head? = none ∨ rest.head? = some '/') then
      cleanLoop rooted fuel rest dotdot rout
    else if c = '.' ∧ rest.head? = some '.' ∧
        (rest.tail.head? = none ∨ rest.tail.head? = some '/') then
      if dotdot < rout.length then
        let rout' := match rout with
          | [] => []
          | d :: ds => backtrack dotdot ds d
        cleanLoop rooted fuel rest.tail dotdot rout'
      else if !rooted then
        let rout' := '.' :: '.' :: (if 0 < rout.length then '/' :: rout else rout)
        cleanLoop rooted fuel rest.tail rout'.length rout'
      else
        cleanLoop rooted fuel rest.tail dotdot rout
    else
      let rout₁ := if (rooted && rout.length != 1) || (!rooted && rout.length != 0)
        then '/' :: rout else rout
      let elem := c :: rest.takeWhile (fun d => d != '/')
      cleanLoop rooted fuel (rest.dropWhile (fun d => d != '/')) dotdot
        (elem.reverse ++ rout₁)

/-- Go's `path.Clean`. -/
def clean (p : String) : String :=
  if p = "" then "."
  else
    let cs := p.data
    let rooted : Bool := cs.head? == some '/'
    let st : List Char × Nat × List Char :=
      if rooted then (cs.tail, 1, ['/']) else (cs, 0, [])
    let rout := cleanLoop rooted (st.1.length + 1) st.1 st.2.1 st.2.2
    if rout.length = 0 then "." else String.mk rout.reverse

/-- Go's `path.Join`: concatenate the non-empty elements with slashes
and `Clean` the result; all-empty input yields `""`. -/
def pathJoin (elem : List String) : String :=
  if (elem.map String.length).sum = 0 then ""
  else
    clean (elem.foldl (fun buf e =>
      if 0 < buf.length ∨ 0 < e.length then
        (if 0 < buf.length then buf ++ "/" else buf) ++ e
      else buf) "")

/- ### `newUUID` -/

/-- The hexadecimal alphabet `table` of switch.go. -/
def table : String := "0123456789ABCDEF"

/-- One iteration of the `newUUID` loop: the two characters written at
`b[i]` and `b[i+1]` for the drawn byte `v`.  (The source's `v < 16`
branch assigns `'0'` and `table[v&0x0F]` but is immediately overwritten
by the unconditional assignment that follows it, so the net effect is
always `table[v>>4], table[v&0x0F]`.) -/
def hexPair (v : Nat) : List Char :=
  [table.data.getD (v / 16) ' ', table.data.getD (v % 16) ' ']

/-- `newUUID`: 32 iterations, each drawing one byte
`v = fastRand() & 0xFF` and emitting two characters. -/
def newUUID (rand : Nat → Nat) : String :=
  String.mk (((List.range 32).map (fun j => hexPair (rand j % 256))).flatten)

/- ### `Switch.process` -/

/-- Go's `strings.HasPrefix s pre`. -/
def hasPrefix (s pre : String) : Bool :=
  pre.data.isPrefixOf s.data

/-- The slice `s[n:]` (drop the first `n` characters). -/
def strDrop (s : String) (n : Nat) : String :=
  String.mk (s.data.drop n)

/-- The rewrite loop of `Switch.process` lines 141-145:
`if strings.HasPrefix(s.Path, k) { s.Path = path.Join(v, s.Path[len(k):]) }`
for each `(k, v)` in the table.  Go map iteration order is unspecified;
the table is modelled as a list applied in list order (one admissible
iteration order). -/
def applyRewrites (rules : List (String × String)) (p : String) : String :=
  rules.foldl (fun pth kv =>
    if hasPrefix pth kv.1 then pathJoin [kv.2, strDrop pth kv.1.length] else pth) p

/-- The outbound URL of one `Switch.process` invocation. -/
def Switch.outURL (s : Switch) (r : Request) : URLData :=
  { s.URL with
    Path := applyRewrites s.rewrite r.URL.Path
    User := r.URL.User
    opaq := r.URL.opaq
    Fragment := r.URL.Fragment
    RawQuery := r.URL.RawQuery
    ForceQuery := r.URL.ForceQuery }

/-- The bytes the transport reads from the Transfer's input cursor: the
captured body from the reader's current offset. -/
def readBody (t : Transfer) : List Nat :=
  match t.«in» with
  | none => []
  | some pos => (t.data.getD []).drop pos

/-- The outbound request handed to `client.Do`: method and computed
URL, headers/trailer/transfer-encoding copied verbatim from the
inbound request, body read from the input cursor. -/
def Switch.outReq (s : Switch) (r : Request) (t : Transfer) : OutRequest :=
  { Method := r.Method
    URL := s.outURL r
    Header := r.Header
    Trailer := r.Trailer
    TransferEncoding := r.TransferEncoding
    Body := readBody t }

/-- Return value of `Switch.process` `(int, http.Header, error)`
together with the updated Transfer and the event trace. -/
structure ProcResult where
  status : Nat
  headers : Option HeaderMap
  isErr : Bool
  t : Transfer
  trace : List Event
deriving Repr

/-- The `Result` handed to the pre-hook (switch.go lines 157-165):
inbound headers, acting IP, the correlation token, the computed
URL/path, the inbound method, the captured body, and a zero status. -/
def Switch.preResult (s : Switch) (net : Net) (r : Request) (t : Transfer) : Result :=
  { Headers := r.Header, IP := r.RemoteAddr, UUID := newUUID net.rand,
    Path := (s.outURL r).Path, Method := r.Method, URL := s.outURL r,
    Content := t.data, Status := 0 }

/-- The `Result` handed to the post-hook (switch.go lines 180-189):
upstream headers, the same correlation token, the upstream status
truncated to `uint16`, and the accumulated output bytes. -/
def Switch.postResult (s : Switch) (net : Net) (r : Request)
    (st : Nat) (hs : HeaderMap) (outBytes : List Nat) : Result :=
  { Headers := hs, IP := r.RemoteAddr, UUID := newUUID net.rand,
    Path := (s.outURL r).Path, Method := r.Method, URL := s.outURL r,
    Content := some outBytes, Status := st % 65536 }

/-- A hook invocation guarded by the nil check on its handler slot. -/
def optEvent (b : Bool) (e : Event) : List Event :=
  if b then [e] else []

/-- `Switch.process` (switch.go lines 134-194).  The timeout-scoped
child context and its release function `f` only affect the external
call's deadline and are absorbed into the `Net` oracle.  The reader is
fully consumed by the outbound call. -/
def Switch.process (s : Switch) (net : Net) (r : Request) (t : Transfer) : ProcResult :=
  if net.reqOk = false then
    { status := 0, headers := none, isErr := true, t := t, trace := [] }
  else
    let q := s.outReq r t
    let trace₁ := optEvent s.Pre (Event.evPre (s.preResult net r t)) ++
      [Event.evCopyHeaders r.Header r.Trailer r.TransferEncoding, Event.evCall q]
    let t₁ := { t with «in» := t.«in».map (fun _ => (t.data.getD []).length) }
    match net.call q with
    | CallResult.failure =>
      { status := 0, headers := none, isErr := true, t := t₁, trace := trace₁ }
    | CallResult.success st hs bs copyFailAt =>
      match copyFailAt with
      | some k =>
        { status := 0, headers := none, isErr := true,
          t := { t₁ with out := t₁.out ++ bs.take k }, trace := trace₁ }
      | none =>
        let t₂ := { t₁ with out := t₁.out ++ bs }
        { status := st, headers := some hs, isErr := false, t := t₂,
          trace := trace₁ ++ optEvent s.Post
            (Event.evPost (s.postResult net r st hs t₂.out)) }

/- ### The client-facing response writer -/

/-- The observable state of the `http.ResponseWriter`: headers staged,
the committed status line (if any), and the bytes written so far. -/
structure ResponseState where
  header : HeaderMap := []
  status : Option Nat := none
  body : List Nat := []
deriving DecidableEq, Repr

/-- `w.WriteHeader code`: commits the status; a second call is
superfluous and ignored. -/
def writeHeader (w : ResponseState) (code : Nat) : ResponseState :=
  match w.status with
  | some _ => w
  | none => { w with status := some code }

/-- `w.Write`: appends bytes, committing a 200 status first when none
was committed yet. -/
def write (w : ResponseState) (bs : List Nat) : ResponseState :=
  match w.status with
  | some _ => { w with body := w.body ++ bs }
  | none => { w with status := some 200, body := w.body ++ bs }

/-- A string as response-body bytes. -/
def strBytes (s : String) : List Nat :=
  s.data.map Char.toNat

/-- `http.StatusText` for the codes the proxy emits. -/
def statusText (code : Nat) : String :=
  if code = 500 then "Internal Server Error"
  else if code = 503 then "Service Unavailable"
  else ""

/-- Go's `http.Error(w, txt, code)`: delete Content-Length, set
Content-Type and X-Content-Type-Options, write the status header, then
print the message followed by a newline. -/
def httpError (w : ResponseState) (txt : String) (code : Nat) : ResponseState :=
  let h₁ := hset (hset (hdel w.header "Content-Length")
    "Content-Type" ["text/plain; charset=utf-8"]) "X-Content-Type-Options" ["nosniff"]
  let w₁ := { w with header := h₁ }
  write (writeHeader w₁ code) (strBytes (txt ++ "\n"))

/- ### The Proxy -/

/-- The routing state of a `Proxy`: the buffer pool, the optional
primary Switch and the ordered secondary list. -/
structure Proxy where
  pool : List Transfer := []
  primary : Option Switch := none
  secondary : List Switch := []

/-- `sync.Pool.Get`: take a pooled Transfer, or make a fresh one via
the pool's `New` (empty buffers, nil reader and slice). -/
def poolGet (pool : List Transfer) : Transfer × List Transfer :=
  match pool with
  | [] => ({ «in» := none, out := [], read := [], data := none }, [])
  | t :: rest => (t, rest)

/-- `Proxy.clear` (proxy.go lines 93-98): nil the reader and the
captured slice, reset both buffers, and return the Transfer to the
pool. -/
def Proxy.clear (pool : List Transfer) (t : Transfer) : Transfer × List Transfer :=
  let t₁ : Transfer := { t with «in» := none, data := none, out := [], read := [] }
  (t₁, t₁ :: pool)

/-- Client-connection I/O failures for one request: `bodyErrAt = some k`
means `io.Copy(t.read, r.Body)` fails after `k` bytes;
`respCopyErrAt = some k` means `io.Copy(w, t.out)` fails after `k`
bytes. -/
structure ClientIO where
  bodyErrAt : Option Nat := none
  respCopyErrAt : Option Nat := none
deriving DecidableEq, Repr

/-- Body capture (proxy.go lines 111-118 success path): ingest the
inbound body into `t.read`, snapshot it as `t.data`, and build the
reader positioned at offset 0. -/
def ingest (t : Transfer) (bodyBytes : List Nat) : Transfer :=
  let t₁ := { t with read := t.read ++ bodyBytes }
  { t₁ with data := some t₁.read, «in» := some 0 }

/-- The primary-forward phase (proxy.go lines 118-132): call the
primary and relay status/headers/accumulator to the client, 500 on
error, 503 when no primary is configured.  Returns the response state,
the Transfer after the call, and the primary's event trace. -/
def primaryPhase (prim : Option Switch) (net : Net) (io : ClientIO)
    (r : Request) (t : Transfer) (w : ResponseState) :
    ResponseState × Transfer × List Event :=
  match prim with
  | none => (httpError w (statusText 503) 503, t, [])
  | some sw =>
    let pr := sw.process net r t
    if pr.isErr then
      (httpError w (statusText 500) 500, pr.t, pr.trace)
    else
      let w₁ := { w with header := hsetAll w.header (pr.headers.getD []) }
      let w₂ := writeHeader w₁ pr.status
      match io.respCopyErrAt with
      | some k =>
        (httpError (write w₂ (pr.t.out.take k)) (statusText 500) 500, pr.t, pr.trace)
      | none => (write w₂ pr.t.out, pr.t, pr.trace)

/-- One secondary invocation as recorded by the mirror loop: which
Switch was called, the Transfer it was handed (after the reset and
rewind), and its event trace. -/
structure SecCall where
  sw : Switch
  entry : Transfer
  trace : List Event

/-- The mirror loop (proxy.go lines 133-139): for each secondary in
list order, reset the output accumulator, rewind the input cursor to
offset 0, call `process`, and discard its status, headers and error.
`nets i` supplies the external behaviour of the call numbered `i`. -/
def mirrorPhase (secs : List Switch) (nets : Nat → Net) (i : Nat)
    (r : Request) (t : Transfer) : Transfer × List SecCall :=
  match secs with
  | [] => (t, [])
  | sw :: rest =>
    let t₁ : Transfer := { t with out := [], «in» := some 0 }
    let pr := sw.process (nets i) r t₁
    let rec' := mirrorPhase rest nets (i + 1) r pr.t
    (rec'.1, { sw := sw, entry := t₁, trace := pr.trace } :: rec'.2)

/-- Release / close-body events of the handler, in program order. -/
inductive PEvent where
  | clear
  | closeBody
deriving DecidableEq, Repr

/-- The observable outcome of one `Proxy.ServeHTTP` execution. -/
structure ServeResult where
  resp : ResponseState
  pool : List Transfer
  cleared : Transfer
  primaryTrace : List Event
  secCalls : List SecCall
  events : List PEvent

/-- `Proxy.ServeHTTP` (proxy.go lines 109-142).  `nets 0` is the
external behaviour of the primary's call, `nets (i+1)` that of the
`i`-th secondary's call. -/
def Proxy.ServeHTTP (p : Proxy) (io : ClientIO) (nets : Nat → Net)
    (r : Request) : ServeResult :=
  let w : ResponseState := {}
  let got := poolGet p.pool
  match io.bodyErrAt with
  | some k =>
    let t₁ := { got.1 with read := got.1.read ++ r.bodyBytes.take k }
    let w₁ := httpError w (statusText 500) 500
    let cl := Proxy.clear got.2 t₁
    { resp := w₁, pool := cl.2, cleared := cl.1, primaryTrace := [],
      secCalls := [], events := [PEvent.clear, PEvent.closeBody] }
  | none =>
    let t₂ := ingest got.1 r.bodyBytes
    let ph := primaryPhase p.primary (nets 0) io r t₂ w
    let mi := mirrorPhase p.secondary nets 1 r ph.2.1
    let cl := Proxy.clear got.2 mi.1
    { resp := ph.1, pool := cl.2, cleared := cl.1, primaryTrace := ph.2.2,
      secCalls := mi.2, events := [PEvent.clear, PEvent.closeBody] }

/- ### Construction (`NewContext` and its parameters) -/

/-- `DefaultTimeout = time.Second * 15`, in nanoseconds
(`time.Duration` is an integer nanosecond count). -/
def DefaultTimeout : Int := 15 * 1000000000

/-- The timeout fields of the `http.Server` that `NewContext`
configures. -/
structure ServerConfig where
  ReadTimeout : Int := 0
  IdleTimeout : Int := 0
  WriteTimeout : Int := 0
  ReadHeaderTimeout : Int := 0
deriving DecidableEq, Repr

/-- The construction-relevant state of a `Proxy`. -/
structure ProxyConfig where
  key : String := ""
  cert : String := ""
  server : ServerConfig := {}
deriving DecidableEq, Repr

/-- A construction `Parameter`: either the `Timeout` duration alias or
the TLS `keys` pair. -/
inductive Parameter where
  | timeout (d : Int)
  | tls (cert key : String)
deriving DecidableEq, Repr

/-- `Parameter.config`: `Timeout.config` sets all four server timeouts;
`keys.config` installs the certificate pair. -/
def Parameter.config (c : Parameter) (p : ProxyConfig) : ProxyConfig :=
  match c with
  | Parameter.timeout d =>
    { p with server := { p.server with
        ReadTimeout := d, IdleTimeout := d,
        WriteTimeout := d, ReadHeaderTimeout := d } }
  | Parameter.tls cert key => { p with key := key, cert := cert }

/-- `NewContext` (construction): start from a zero-valued server, apply
each supplied parameter in order, and only when the parameter list is
empty install `DefaultTimeout` in all four slots. -/
def NewContext (c : List Parameter) : ProxyConfig :=
  let p : ProxyConfig := {}
  let p₁ := c.foldl (fun acc par => par.config acc) p
  if c.length = 0 then
    { p₁ with server := { p₁.server with
        ReadTimeout := DefaultTimeout, IdleTimeout := DefaultTimeout,
        WriteTimeout := DefaultTimeout, ReadHeaderTimeout := DefaultTimeout } }
  else p₁

/-- Whether a parameter list contains a timeout parameter. -/
def hasTimeoutParam (c : List Parameter) : Bool :=
  c.any fun par => match par with
    | Parameter.timeout _ => true
    | Parameter.tls _ _ => false

/- ### Concrete fixtures used in witness theorems -/

/-- A concrete inbound request. -/
def wReq : Request :=
  { Method := "POST", URL := { Path := "/api/users" },
    Header := [("X-In", ["a"])], RemoteAddr := "10.0.0.1:999",
    bodyBytes := [1, 2, 3] }

/-- A concrete Switch with both hooks set and one rewrite rule. -/
def wSw : Switch :=
  { Pre := true, Post := true, rewrite := [("/api", "/v2")],
    URL := { Scheme := "http", Host := "example.com" } }

/-- An upstream that echoes the request body plus one byte. -/
def wNetOK : Net :=
  { reqOk := true,
    call := fun q => CallResult.success 200 [("X-Up", ["b"])] (q.Body ++ [9]) none,
    rand := fun j => j }

/-- An upstream whose transport always fails. -/
def wNetFail : Net :=
  { reqOk := true, call := fun _ => CallResult.failure, rand := fun j => j }

/-- An upstream whose response-body copy fails after two bytes. -/
def wNetCopyFail : Net :=
  { reqOk := true,
    call := fun _ => CallResult.success 200 [] [5, 6, 7] (some 2),
    rand := fun j => j }

/-- Every call in a request sees the echoing upstream. -/
def wNets : Nat → Net := fun _ => wNetOK

/-- A proxy with the concrete Switch as primary and as one secondary. -/
def wProxy : Proxy := { pool := [], primary := some wSw, secondary := [wSw] }

/-- A proxy with no primary configured. -/
def wProxyNoPrim : Proxy := { pool := [], primary := none, secondary := [wSw] }

/-- The Transfer as handed to the primary for `wReq` (fresh pool
element after ingestion). -/
def wT : Transfer := ingest {} wReq.bodyBytes

/-- The outbound request the concrete Switch builds for `wReq`. -/
def wQ : OutRequest := wSw.outReq wReq wT

/-- The post-hook Result produced by the echoing upstream for `wReq`. -/
def wPostRes : Result :=
  wSw.postResult wNetOK wReq 200 [("X-Up", ["b"])] [1, 2, 3, 9]

/- ### Basic lemmas -/

theorem mem_optEvent {b : Bool} {e x : Event} :
    x ∈ optEvent b e ↔ (b = true ∧ x = e) := by
  cases b <;> simp [optEvent]

/-- `process` never touches the captured-body slice. -/
theorem process_t_data (s : Switch) (net : Net) (r : Request) (t : Transfer) :
    (s.process net r t).t.data = t.data := by
  simp only [Switch.process]
  split
  · rfl
  · split
    · rfl
    · split <;> rfl

/-- Every `evCall` event of a `process` trace carries exactly the
outbound request `s.outReq r t`. -/
theorem call_eq_of_mem {s : Switch} {net : Net} {r : Request} {t : Transfer}
    {q : OutRequest} (h : Event.evCall q ∈ (s.process net r t).trace) :
    q = s.outReq r t := by
  simp only [Switch.process] at h
  split at h
  · simp at h
  · split at h
    · simp [mem_optEvent] at h; exact h
    · split at h <;> simp [mem_optEvent] at h <;> exact h

/-- Every `evPre` event of a `process` trace carries exactly
`s.preResult net r t`; it only occurs when the pre-hook is set and the
outbound request was built. -/
theorem pre_eq_of_mem {s : Switch} {net : Net} {r : Request} {t : Transfer}
    {res : Result} (h : Event.evPre res ∈ (s.process net r t).trace) :
    res = s.preResult net r t ∧ s.Pre = true ∧ net.reqOk = true := by
  simp only [Switch.process] at h
  split at h
  · simp at h
  · rename_i hok
    rw [Bool.not_eq_false] at hok
    split at h
    · simp [mem_optEvent] at h; exact ⟨h.2, h.1, hok⟩
    · split at h <;> simp [mem_optEvent] at h <;> exact ⟨h.2, h.1, hok⟩

/-- Every `evPost` event of a `process` trace comes from a fully
successful call: the transport returned, the body copy completed, and
the Result is `s.postResult` for that upstream status, headers and the
accumulated output. -/
theorem post_eq_of_mem {s : Switch} {net : Net} {r : Request} {t : Transfer}
    {res : Result} (h : Event.evPost res ∈ (s.process net r t).trace) :
    ∃ st hs bs, net.call (s.outReq r t) = CallResult.success st hs bs none ∧
      res = s.postResult net r st hs (t.out ++ bs) ∧
      s.Post = true ∧ net.reqOk = true := by
  simp only [Switch.process] at h
  split at h
  · simp at h
  · rename_i hok
    rw [Bool.not_eq_false] at hok
    split at h
    · simp [mem_optEvent] at h
    · rename_i st hs bs cf heq
      cases cf with
      | some k => simp [mem_optEvent] at h
      | none =>
        simp [mem_optEvent] at h
        exact ⟨st, hs, bs, heq, h.2, h.1, hok⟩

/-- `Write` always leaves a committed status behind. -/
theorem write_status_isSome (w : ResponseState) (bs : List Nat) :
    (write w bs).status.isSome = true := by
  simp only [write]
  split <;> rename_i h <;> simp_all

/-- `http.Error` always leaves a committed status behind. -/
theorem httpError_status_isSome (w : ResponseState) (txt : String) (code : Nat) :
    (httpError w txt code).status.isSome = true := by
  simp only [httpError]
  exact write_status_isSome ..

/-- The primary phase always commits a status line. -/
theorem primaryPhase_status_isSome (prim : Option Switch) (net : Net)
    (io : ClientIO) (r : Request) (t : Transfer) (w : ResponseState) :
    ((primaryPhase prim net io r t w).1).status.isSome = true := by
  simp only [primaryPhase]
  split
  · exact httpError_status_isSome ..
  · split
    · exact httpError_status_isSome ..
    · split
      · exact httpError_status_isSome ..
      · exact write_status_isSome ..

/-- The primary phase never touches the captured-body slice. -/
theorem primaryPhase_t_data (prim : Option Switch) (net : Net)
    (io : ClientIO) (r : Request) (t : Transfer) (w : ResponseState) :
    ((primaryPhase prim net io r t w).2.1).data = t.data := by
  simp only [primaryPhase]
  split
  · rfl
  · split
    · exact process_t_data ..
    · split <;> exact process_t_data ..

/-- Every `evCall` event in the primary phase's trace is the call the
configured primary builds on the given Transfer. -/
theorem primaryPhase_call_eq {prim : Option Switch} {net : Net}
    {io : ClientIO} {r : Request} {t : Transfer} {w : ResponseState}
    {q : OutRequest} (h : Event.evCall q ∈ (primaryPhase prim net io r t w).2.2) :
    ∃ sw, prim = some sw ∧ q = sw.outReq r t := by
  simp only [primaryPhase] at h
  split at h
  · simp at h
  · rename_i sw
    refine ⟨sw, rfl, ?_⟩
    split at h
    · exact call_eq_of_mem h
    · split at h <;> exact call_eq_of_mem h

/-- The mirror loop visits exactly the configured secondaries, in list
order. -/
theorem mirrorPhase_sw_map (secs : List Switch) (nets : Nat → Net) (i : Nat)
    (r : Request) (t : Transfer) :
    ((mirrorPhase secs nets i r t).2).map SecCall.sw = secs := by
  induction secs generalizing i t with
  | nil => rfl
  | cons sw rest ih => simp only [mirrorPhase, List.map_cons]; simp [ih]

/-- Every secondary is handed a Transfer with the output accumulator
reset and the input cursor rewound to offset 0. -/
theorem mirrorPhase_entry_reset (secs : List Switch) (nets : Nat → Net) (i : Nat)
    (r : Request) (t : Transfer) :
    ∀ c ∈ (mirrorPhase secs nets i r t).2,
      c.entry.out = [] ∧ c.entry.«in» = some 0 := by
  induction secs generalizing i t with
  | nil => simp [mirrorPhase]
  | cons sw rest ih =>
    intro c hc
    simp only [mirrorPhase, List.mem_cons] at hc
    rcases hc with hc | hc
    · subst hc; exact ⟨rfl, rfl⟩
    · exact ih _ _ _ hc

/-- With the captured body `d` in place, every secondary's outbound
call reads exactly `d`. -/
theorem mirrorPhase_call_body {secs : List Switch} {nets : Nat → Net} {i : Nat}
    {r : Request} {t : Transfer} {d : List Nat} (hd : t.data = some d) :
    ∀ c ∈ (mirrorPhase secs nets i r t).2,
      ∀ q, Event.evCall q ∈ c.trace → q.Body = d := by
  induction secs generalizing i t with
  | nil => simp [mirrorPhase]
  | cons sw rest ih =>
    intro c hc q hq
    simp only [mirrorPhase, List.mem_cons] at hc
    rcases hc with hc | hc
    · subst hc
      simp only at hq
      have hq' := call_eq_of_mem hq
      subst hq'
      simp [Switch.outReq, readBody, hd]
    · refine ih ?_ c hc q hq
      rw [process_t_data]
      exact hd

/-- Each loop iteration of `newUUID` contributes exactly two
characters. -/
theorem flatten_hexPair_length (f : Nat → Nat) (l : List Nat) :
    ((l.map (fun j => hexPair (f j))).flatten).length = 2 * l.length := by
  induction l with
  | nil => rfl
  | cons a as ih =>
    have h2 : (hexPair (f a)).length = 2 := rfl
    simp only [List.map_cons, List.flatten_cons, List.length_append, h2, ih,
      List.length_cons]
    ring

/- ### Claim theorems -/

/-- C3: for every request handled when no primary Switch is configured
(and whose body ingestion succeeds), the Proxy responds 503 Service
Unavailable — status and body are exactly `http.Error`'s 503 output,
for any method, path, headers and body — and no primary forward is
attempted (the primary trace is empty). -/
theorem no_primary_503 (p : Proxy) (io : ClientIO) (nets : Nat → Net)
    (r : Request) (hprim : p.primary = none) (hio : io.bodyErrAt = none) :
    (p.ServeHTTP io nets r).resp.status = some 503 ∧
    (p.ServeHTTP io nets r).resp.body = strBytes (statusText 503 ++ "\n") ∧
    (p.ServeHTTP io nets r).primaryTrace = [] := by
  simp [Proxy.ServeHTTP, hio, hprim, primaryPhase, httpError, writeHeader, write]

/-- Witness for `no_primary_503` at a concrete no-primary proxy and
request. -/
theorem no_primary_503_witness :
    wProxyNoPrim.primary = none ∧ ({} : ClientIO).bodyErrAt = none ∧
    (wProxyNoPrim.ServeHTTP {} wNets wReq).resp.status = some 503 :=
  ⟨rfl, rfl, (no_primary_503 wProxyNoPrim {} wNets wReq rfl rfl).1⟩

/-- C4: with the single rewrite rule `/api → /v2`, path `/api/users`
rewrites to `/v2/users` and path `/other` is unmodified; in general a
single rule replaces a matching prefix with its replacement via
path-join semantics, and the outbound path of every call `process`
makes is exactly `applyRewrites` of the inbound path. -/
theorem rewrite_prefix_semantics :
    applyRewrites [("/api", "/v2")] "/api/users" = "/v2/users" ∧
    applyRewrites [("/api", "/v2")] "/other" = "/other" ∧
    (∀ k v pth, applyRewrites [(k, v)] pth =
      if hasPrefix pth k then pathJoin [v, strDrop pth k.length] else pth) ∧
    (∀ (s : Switch) (net : Net) (r : Request) (t : Transfer) (q : OutRequest),
      Event.evCall q ∈ (s.process net r t).trace →
      q.URL.Path = applyRewrites s.rewrite r.URL.Path) := by
  refine ⟨by decide, by decide, fun k v pth => rfl, fun s net r t q h => ?_⟩
  rw [call_eq_of_mem h]
  rfl

/-- Witness for `rewrite_prefix_semantics` at the concrete
Switch/request: the outbound call is in the trace and its path is the
rewritten one. -/
theorem rewrite_prefix_semantics_witness :
    Event.evCall wQ ∈ (wSw.process wNetOK wReq wT).trace ∧
    wQ.URL.Path = applyRewrites wSw.rewrite wReq.URL.Path :=
  ⟨by decide, rewrite_prefix_semantics.2.2.2 wSw wNetOK wReq wT wQ (by decide)⟩

/-- C6: on every execution path of the handler — body-read failure,
primary error, no-primary, success — the Transfer is released exactly
once (the event list contains exactly one `clear`, followed by the
body close): its input cursor and captured-body reference are nilled,
its output accumulator and scratch buffer reset, and it is returned to
the pool (it is the new pool head). -/
theorem transfer_released_once (p : Proxy) (io : ClientIO) (nets : Nat → Net)
    (r : Request) :
    (p.ServeHTTP io nets r).events = [PEvent.clear, PEvent.closeBody] ∧
    (p.ServeHTTP io nets r).cleared.«in» = none ∧
    (p.ServeHTTP io nets r).cleared.data = none ∧
    (p.ServeHTTP io nets r).cleared.out = [] ∧
    (p.ServeHTTP io nets r).cleared.read = [] ∧
    (p.ServeHTTP io nets r).pool.head? = some (p.ServeHTTP io nets r).cleared := by
  cases hio : io.bodyErrAt <;> simp [Proxy.ServeHTTP, hio, Proxy.clear]

/-- C7 counterexample: constructing with a TLS parameter but no
timeout parameter leaves all four server timeouts at 0, not at
`DefaultTimeout` — refuting "without a timeout parameter being
supplied, the timeouts each default to 15 seconds". -/
theorem timeout_defaults_counterexample :
    hasTimeoutParam [Parameter.tls "cert.pem" "key.pem"] = false ∧
    (NewContext [Parameter.tls "cert.pem" "key.pem"]).server.ReadTimeout = 0 ∧
    (NewContext [Parameter.tls "cert.pem" "key.pem"]).server.WriteTimeout = 0 ∧
    (NewContext [Parameter.tls "cert.pem" "key.pem"]).server.IdleTimeout = 0 ∧
    (NewContext [Parameter.tls "cert.pem" "key.pem"]).server.ReadHeaderTimeout = 0 ∧
    (0 : Int) ≠ DefaultTimeout :=
  ⟨rfl, rfl, rfl, rfl, rfl, by decide⟩

/-- C7 (amended): the 15-second defaults are installed only when the
parameter list is empty; a timeout parameter sets all four fields; a
TLS-only construction leaves all four timeouts zero. -/
theorem timeout_defaults_amended :
    ((NewContext []).server.ReadTimeout = DefaultTimeout ∧
     (NewContext []).server.WriteTimeout = DefaultTimeout ∧
     (NewContext []).server.IdleTimeout = DefaultTimeout ∧
     (NewContext []).server.ReadHeaderTimeout = DefaultTimeout) ∧
    (∀ d : Int,
      (NewContext [Parameter.timeout d]).server.ReadTimeout = d ∧
      (NewContext [Parameter.timeout d]).server.WriteTimeout = d ∧
      (NewContext [Parameter.timeout d]).server.IdleTimeout = d ∧
      (NewContext [Parameter.timeout d]).server.ReadHeaderTimeout = d) ∧
    (NewContext [Parameter.tls "cert.pem" "key.pem"]).server = ({} : ServerConfig) :=
  ⟨⟨rfl, rfl, rfl, rfl⟩, fun _ => ⟨rfl, rfl, rfl, rfl⟩, rfl⟩

/-- C1: whenever the handler reaches the mirroring phase (body
ingestion succeeded), the client response is already committed and is
exactly the primary phase's response, computed before any secondary
runs; it is unchanged under any change of the secondaries' external
behaviour (statuses, headers, errors are discarded); the secondaries
are iterated in configured list order; and each is handed the Transfer
with the output accumulator reset and the input cursor rewound to 0. -/
theorem secondary_mirroring_silent (p : Proxy) (io : ClientIO)
    (nets nets' : Nat → Net) (r : Request)
    (hio : io.bodyErrAt = none) (h0 : nets 0 = nets' 0) :
    (p.ServeHTTP io nets r).resp = (p.ServeHTTP io nets' r).resp ∧
    (p.ServeHTTP io nets r).resp =
      (primaryPhase p.primary (nets 0) io r
        (ingest (poolGet p.pool).1 r.bodyBytes) {}).1 ∧
    (p.ServeHTTP io nets r).resp.status.isSome = true ∧
    (p.ServeHTTP io nets r).secCalls.map SecCall.sw = p.secondary ∧
    (∀ c ∈ (p.ServeHTTP io nets r).secCalls,
      c.entry.out = [] ∧ c.entry.«in» = some 0) := by
  have hresp : (p.ServeHTTP io nets r).resp =
      (primaryPhase p.primary (nets 0) io r
        (ingest (poolGet p.pool).1 r.bodyBytes) {}).1 := by
    simp [Proxy.ServeHTTP, hio]
  have hresp' : (p.ServeHTTP io nets' r).resp =
      (primaryPhase p.primary (nets' 0) io r
        (ingest (poolGet p.pool).1 r.bodyBytes) {}).1 := by
    simp [Proxy.ServeHTTP, hio]
  have hsec : (p.ServeHTTP io nets r).secCalls =
      (mirrorPhase p.secondary nets 1 r
        (primaryPhase p.primary (nets 0) io r
          (ingest (poolGet p.pool).1 r.bodyBytes) {}).2.1).2 := by
    simp [Proxy.ServeHTTP, hio]
  refine ⟨?_, hresp, ?_, ?_, ?_⟩
  · rw [hresp, hresp', h0]
  · rw [hresp]; exact primaryPhase_status_isSome ..
  · rw [hsec]; exact mirrorPhase_sw_map ..
  · rw [hsec]; exact mirrorPhase_entry_reset _ _ _ _ _

/-- Witness for `secondary_mirroring_silent` at the concrete proxy
(one echoing secondary). -/
theorem secondary_mirroring_silent_witness :
    ({} : ClientIO).bodyErrAt = none ∧ wNets 0 = wNets 0 ∧
    (wProxy.ServeHTTP {} wNets wReq).resp.status.isSome = true ∧
    (wProxy.ServeHTTP {} wNets wReq).secCalls.map SecCall.sw = wProxy.secondary :=
  ⟨rfl, rfl,
   (secondary_mirroring_silent wProxy {} wNets wNets wReq rfl rfl).2.2.1,
   (secondary_mirroring_silent wProxy {} wNets wNets wReq rfl rfl).2.2.2.1⟩

/-- C2: with a clean pool, the body delivered to the primary's
outbound call and to every secondary's outbound call is byte-identical
to the original inbound body, for any number of secondaries; all read
the single capture from offset 0. -/
theorem body_byte_identical (p : Proxy) (io : ClientIO) (nets : Nat → Net)
    (r : Request) (hio : io.bodyErrAt = none)
    (hpool : ∀ u ∈ p.pool, u.read = []) :
    (∀ q, Event.evCall q ∈ (p.ServeHTTP io nets r).primaryTrace →
      q.Body = r.bodyBytes) ∧
    (∀ c ∈ (p.ServeHTTP io nets r).secCalls,
      ∀ q, Event.evCall q ∈ c.trace → q.Body = r.bodyBytes) := by
  have hread : (poolGet p.pool).1.read = [] := by
    cases hp : p.pool with
    | nil => rfl
    | cons u rest => exact hpool u (by simp [hp])
  have hdata : (ingest (poolGet p.pool).1 r.bodyBytes).data = some r.bodyBytes := by
    simp [ingest, hread]
  have hin : (ingest (poolGet p.pool).1 r.bodyBytes).«in» = some 0 := rfl
  have htr : (p.ServeHTTP io nets r).primaryTrace =
      (primaryPhase p.primary (nets 0) io r
        (ingest (poolGet p.pool).1 r.bodyBytes) {}).2.2 := by
    simp [Proxy.ServeHTTP, hio]
  have hsec : (p.ServeHTTP io nets r).secCalls =
      (mirrorPhase p.secondary nets 1 r
        (primaryPhase p.primary (nets 0) io r
          (ingest (poolGet p.pool).1 r.bodyBytes) {}).2.1).2 := by
    simp [Proxy.ServeHTTP, hio]
  constructor
  · intro q hq
    rw [htr] at hq
    obtain ⟨sw, _, hq⟩ := primaryPhase_call_eq hq
    subst hq
    simp [Switch.outReq, readBody, hdata, hin]
  · rw [hsec]
    refine mirrorPhase_call_body ?_
    rw [primaryPhase_t_data]
    exact hdata

/-- Witness for `body_byte_identical`: the concrete primary call reads
exactly the inbound body bytes. -/
theorem body_byte_identical_witness :
    ({} : ClientIO).bodyErrAt = none ∧
    Event.evCall wQ ∈ (wProxy.ServeHTTP {} wNets wReq).primaryTrace ∧
    wQ.Body = wReq.bodyBytes :=
  ⟨rfl, by decide,
   (body_byte_identical wProxy {} wNets wReq rfl (by simp [wProxy])).1
     wQ (by decide)⟩

/-- C5: on a transport-level call failure, `process` returns a zero
status, nil headers and an error, fires no post-hook, and leaves the
output accumulator untouched; on a response-body copy failure it
returns a zero status, nil headers and an error, fires no post-hook,
and the bytes copied before the failure remain in the accumulator. -/
theorem process_error_paths (s : Switch) (net : Net) (r : Request)
    (t : Transfer) (hok : net.reqOk = true) :
    (net.call (s.outReq r t) = CallResult.failure →
      (s.process net r t).status = 0 ∧ (s.process net r t).headers = none ∧
      (s.process net r t).isErr = true ∧
      (∀ res, Event.evPost res ∉ (s.process net r t).trace) ∧
      (s.process net r t).t.out = t.out) ∧
    (∀ st hs bs k, net.call (s.outReq r t) = CallResult.success st hs bs (some k) →
      (s.process net r t).status = 0 ∧ (s.process net r t).headers = none ∧
      (s.process net r t).isErr = true ∧
      (∀ res, Event.evPost res ∉ (s.process net r t).trace) ∧
      (s.process net r t).t.out = t.out ++ bs.take k) := by
  constructor
  · intro hc
    simp [Switch.process, hok, hc, mem_optEvent]
  · intro st hs bs k hc
    simp [Switch.process, hok, hc, mem_optEvent]

/-- Witness for `process_error_paths`: the copy-fail upstream leaves
the two copied bytes in the accumulator and reports an error. -/
theorem process_error_paths_witness :
    wNetCopyFail.reqOk = true ∧
    wNetCopyFail.call (wSw.outReq wReq wT) =
      CallResult.success 200 [] [5, 6, 7] (some 2) ∧
    (wSw.process wNetCopyFail wReq wT).isErr = true ∧
    (wSw.process wNetCopyFail wReq wT).t.out = wT.out ++ [5, 6, 7].take 2 :=
  ⟨rfl, rfl,
   ((process_error_paths wSw wNetCopyFail wReq wT rfl).2
     200 [] [5, 6, 7] 2 rfl).2.2.1,
   ((process_error_paths wSw wNetCopyFail wReq wT rfl).2
     200 [] [5, 6, 7] 2 rfl).2.2.2.2⟩

/-- C8: with a pre-hook set, the first three events of a `process`
invocation are, in order: the pre-hook invocation, the copying of
headers/trailer/transfer-encoding onto the outbound request, and the
outbound call — and the pre-hook's Result carries the inbound headers,
the captured body, the computed URL and path, the acting IP, the
correlation token, and a zero status. -/
theorem prehook_before_headers_and_call (s : Switch) (net : Net)
    (r : Request) (t : Transfer) (hpre : s.Pre = true) (hok : net.reqOk = true) :
    (s.process net r t).trace.take 3 =
      [Event.evPre (s.preResult net r t),
       Event.evCopyHeaders r.Header r.Trailer r.TransferEncoding,
       Event.evCall (s.outReq r t)] ∧
    (s.preResult net r t).Headers = r.Header ∧
    (s.preResult net r t).Content = t.data ∧
    (s.preResult net r t).URL = s.outURL r ∧
    (s.preResult net r t).Path = (s.outURL r).Path ∧
    (s.preResult net r t).IP = r.RemoteAddr ∧
    (s.preResult net r t).UUID = newUUID net.rand ∧
    (s.preResult net r t).Status = 0 := by
  refine ⟨?_, rfl, rfl, rfl, rfl, rfl, rfl, rfl⟩
  simp only [Switch.process, hok, Bool.true_eq_false, if_false, optEvent, hpre, if_true]
  split
  · rfl
  · split
    · rfl
    · cases hp : s.Post <;> simp [hp]

/-- Witness for `prehook_before_headers_and_call` at the concrete
Switch and request. -/
theorem prehook_before_headers_and_call_witness :
    wSw.Pre = true ∧ wNetOK.reqOk = true ∧
    (wSw.process wNetOK wReq wT).trace.take 3 =
      [Event.evPre (wSw.preResult wNetOK wReq wT),
       Event.evCopyHeaders wReq.Header wReq.Trailer wReq.TransferEncoding,
       Event.evCall (wSw.outReq wReq wT)] :=
  ⟨rfl, rfl, (prehook_before_headers_and_call wSw wNetOK wReq wT rfl rfl).1⟩

/-- C9: `IsResponse` is exactly "method set and status nonzero"; every
Result a `process` invocation passes to the pre-hook has status zero
(so is not a response), and every Result passed to the post-hook
carries the upstream status truncated to `uint16` — nonzero, hence
classified as a response, whenever the upstream status lies in
`1..65535` and the method is set. -/
theorem isResponse_classification :
    (∀ res : Result, res.IsResponse = true ↔
      (0 < res.Method.length ∧ 0 < res.Status)) ∧
    (∀ (s : Switch) (net : Net) (r : Request) (t : Transfer) (res : Result),
      Event.evPre res ∈ (s.process net r t).trace →
      res.Status = 0 ∧ res.IsResponse = false) ∧
    (∀ (s : Switch) (net : Net) (r : Request) (t : Transfer) (res : Result),
      Event.evPost res ∈ (s.process net r t).trace →
      ∃ st hs bs, net.call (s.outReq r t) = CallResult.success st hs bs none ∧
        res.Status = st % 65536 ∧ res.Method = r.Method ∧
        (0 < st → st < 65536 → 0 < r.Method.length → res.IsResponse = true)) := by
  refine ⟨fun res => by simp [Result.IsResponse], ?_, ?_⟩
  · intro s net r t res h
    obtain ⟨he, -, -⟩ := pre_eq_of_mem h
    subst he
    exact ⟨rfl, by simp [Result.IsResponse, Switch.preResult]⟩
  · intro s net r t res h
    obtain ⟨st, hs, bs, hc, he, -, -⟩ := post_eq_of_mem h
    subst he
    refine ⟨st, hs, bs, hc, rfl, rfl, fun h1 h2 h3 => ?_⟩
    simp [Result.IsResponse, Switch.postResult, Nat.mod_eq_of_lt h2, h1, h3]

/-- Witness for `isResponse_classification`: the concrete pre-hook
Result has status 0 and is not a response. -/
theorem isResponse_classification_witness :
    Event.evPre (wSw.preResult wNetOK wReq wT) ∈ (wSw.process wNetOK wReq wT).trace ∧
    (wSw.preResult wNetOK wReq wT).Status = 0 ∧
    (wSw.preResult wNetOK wReq wT).IsResponse = false :=
  ⟨by decide,
   (isResponse_classification.2.1 wSw wNetOK wReq wT _ (by decide)).1,
   (isResponse_classification.2.1 wSw wNetOK wReq wT _ (by decide)).2⟩

/-- C10: the correlation token is always a string of exactly 64
characters over the alphabet `0123456789ABCDEF`, and within a single
`process` invocation the pre-hook Result and the post-hook Result
carry one and the same token, the one generated from that invocation's
random stream. -/
theorem uuid_once_and_wellformed :
    (∀ rand : Nat → Nat, (newUUID rand).length = 64 ∧
      ∀ ch ∈ (newUUID rand).data, ch ∈ table.data) ∧
    (∀ (s : Switch) (net : Net) (r : Request) (t : Transfer) (res res' : Result),
      Event.evPre res ∈ (s.process net r t).trace →
      Event.evPost res' ∈ (s.process net r t).trace →
      res.UUID = newUUID net.rand ∧ res'.UUID = newUUID net.rand ∧
      res.UUID = res'.UUID) := by
  constructor
  · intro rand
    constructor
    · have he : (newUUID rand).length =
          (((List.range 32).map (fun j => hexPair (rand j % 256))).flatten).length := rfl
      rw [he, flatten_hexPair_length (fun j => rand j % 256)]
      simp [List.length_range]
    · intro ch hch
      have hb : ∀ v, v < 256 → ∀ c ∈ hexPair v, c ∈ table.data := by
        intro v hv c hc
        have h16 : table.data.length = 16 := rfl
        have hd : v / 16 < 16 := Nat.div_lt_of_lt_mul (by omega)
        have hm : v % 16 < 16 := Nat.mod_lt _ (by norm_num)
        simp only [hexPair, List.mem_cons, List.mem_singleton] at hc
        rcases hc with hc | hc | hc
        · subst hc
          rw [List.getD_eq_getElem table.data ' ' (h16 ▸ hd)]
          exact List.getElem_mem _
        · subst hc
          rw [List.getD_eq_getElem table.data ' ' (h16 ▸ hm)]
          exact List.getElem_mem _
        · cases hc
      have hch' : ch ∈ ((List.range 32).map (fun j => hexPair (rand j % 256))).flatten := hch
      rw [List.mem_flatten] at hch'
      obtain ⟨l, hl, hcl⟩ := hch'
      rw [List.mem_map] at hl
      obtain ⟨j, -, hj⟩ := hl
      subst hj
      exact hb _ (Nat.mod_lt _ (by norm_num)) ch hcl
  · intro s net r t res res' hpre hpost
    obtain ⟨he, -, -⟩ := pre_eq_of_mem hpre
    obtain ⟨st, hs, bs, -, he', -, -⟩ := post_eq_of_mem hpost
    subst he
    subst he'
    exact ⟨rfl, rfl, rfl⟩

/-- Witness for `uuid_once_and_wellformed`: the concrete pre- and
post-hook Results carry the same token. -/
theorem uuid_once_and_wellformed_witness :
    Event.evPre (wSw.preResult wNetOK wReq wT) ∈ (wSw.process wNetOK wReq wT).trace ∧
    Event.evPost wPostRes ∈ (wSw.process wNetOK wReq wT).trace ∧
    (wSw.preResult wNetOK wReq wT).UUID = wPostRes.UUID :=
  ⟨by decide, by decide,
   (uuid_once_and_wellformed.2 wSw wNetOK wReq wT _ wPostRes
     (by decide) (by decide)).2.2⟩

end SwitchProxy
